import Mathlib

/-!
# Verification of `yaperf` (src/main.go)

A shallow embedding of the single-file Go program `main.go` of the
`yaperf` repository, together with theorems settling the specification
claims about it.

Modelling conventions:

* `Stats` mirrors the Go struct `Stats` (the spec calls it `Sample`).
  `time.Duration` values and `float64` speeds are modelled as rationals
  (`ℚ`); elapsed time is measured in seconds, so `elapsed.Seconds()` is
  the `elapsed` field itself.  Go's `error` is `Option String` (`none`
  is the nil error).  The Go zero value of `Stats` is `zeroStats`.
* The producer goroutine of `downloadAndMeasure` is driven by its
  `select` statement: each loop iteration either observes cancellation
  (`ctx.Done()`), fires the one-second ticker, or (default branch)
  performs a `resp.Body.Read`.  A run of the goroutine is therefore
  determined by the list of `LoopEv` events it encounters; timestamps
  carried by events are the values `time.Since(start)` would return at
  that iteration.  `runLoop` folds the loop body over that event list
  and returns the list of `Stats` values sent on the channel together
  with the way the goroutine ended (`Outcome`).  Every non-`running`
  outcome means the goroutine returned, so the deferred `close(ch)`
  ran and the sequence terminated.
* `client.Get` either fails (connection error) or yields a body to
  stream; `ConnResult` captures the two cases, and
  `downloadAndMeasure` dispatches on it exactly as lines 40–44 of the
  source do before entering the read loop.
* The consumer side (`main`) receives exactly one value from the
  channel per URL (`result := <-downloadAndMeasure(ctx, url)` inside a
  `select` with `ctx.Done()`); `receivedSamples`, `mainSelect` and
  `cycleRun` model that consumption and the printing loop.
-/

namespace Yaperf

/-- The Go struct `Stats` (main.go lines 21–28): URL, cumulative bytes,
elapsed duration, speeds in MB/s and Mbps, and an optional error. -/
structure Stats where
  url : String
  sizeBytes : Int
  elapsed : ℚ
  speedMBps : ℚ
  speedMbps : ℚ
  error : Option String
  deriving DecidableEq, Repr

/-- The Go zero value `Stats{}` (received from a closed channel). -/
def zeroStats : Stats :=
  { url := "", sizeBytes := 0, elapsed := 0, speedMBps := 0, speedMbps := 0,
    error := none }

/-- The `Stats` literal built in the ticker branch (lines 60–66) and the
EOF branch (lines 74–80): current bytes `d`, elapsed `t`, and the speed
formulas `float64(downloaded)/1e6/elapsed.Seconds()` and
`float64(downloaded*8)/1e6/elapsed.Seconds()`. -/
def mkSample (url : String) (d : Int) (t : ℚ) : Stats :=
  { url := url, sizeBytes := d, elapsed := t,
    speedMBps := (d : ℚ) / 1000000 / t,
    speedMbps := ((d * 8 : Int) : ℚ) / 1000000 / t,
    error := none }

/-- The `Stats` literal `Stats{URL: url, Error: err}` sent on a
connection error (line 42) or a non-EOF read error (line 84): every
other field keeps its Go zero value. -/
def errStats (url : String) (msg : String) : Stats :=
  { url := url, sizeBytes := 0, elapsed := 0, speedMBps := 0, speedMbps := 0,
    error := some msg }

/-- One iteration of the producer's `select` (lines 53–87): either the
context is done, the ticker fires at elapsed time `t`, or the default
branch reads `n` bytes returning nil error, `io.EOF` at elapsed time
`t`, or some other error `msg`. -/
inductive LoopEv where
  | cancel (t : ℚ)
  | tick (t : ℚ)
  | readOk (n : ℕ)
  | readEOF (n : ℕ) (t : ℚ)
  | readErr (n : ℕ) (msg : String)
  deriving DecidableEq, Repr

/-- How the producer goroutine ended.  `running` means the event list
was exhausted with the loop still going; every other outcome is a
`return`, after which the deferred `close(ch)` closes the channel.
`cancelled t` records that `log.Printf("Download took %v", …)` logged
the elapsed time `t`. -/
inductive Outcome where
  | running
  | completed
  | failed
  | cancelled (t : ℚ)
  deriving DecidableEq, Repr

/-- The `for { select { … } }` loop of `downloadAndMeasure` (lines
53–88), folded over the events it encounters.  `d` is the running
`downloaded` counter.  Returns the `Stats` sent on the channel, in
order, and the outcome.  On `cancel` the loop returns at once (line
57); on `tick` it sends a progress sample and continues with `d`
unchanged; in the default branch it first adds the `n` bytes read
(lines 69–71), then returns a final sample on `io.EOF` (lines 72–82),
returns an error sample on any other error (lines 83–86), and
otherwise loops. -/
def runLoop (url : String) : Int → List LoopEv → List Stats × Outcome
  | _, [] => ([], .running)
  | _, .cancel t :: _ => ([], .cancelled t)
  | d, .tick t :: rest =>
      let r := runLoop url d rest
      (mkSample url d t :: r.1, r.2)
  | d, .readOk n :: rest => runLoop url (d + n) rest
  | d, .readEOF n t :: _ => ([mkSample url (d + n) t], .completed)
  | _, .readErr _ msg :: _ => ([errStats url msg], .failed)

/-- The result of `client.Get(url)` (line 40): either the request/
connection setup fails with an error, or it succeeds and the body is
streamed, the read loop then seeing the events `evs`. -/
inductive ConnResult where
  | connErr (msg : String)
  | ok (evs : List LoopEv)
  deriving DecidableEq, Repr

/-- The producer goroutine of `downloadAndMeasure` (lines 30–92): on a
failed `Get` it sends exactly one error sample and returns (lines
41–44); otherwise it runs the read loop with `downloaded = 0`. -/
def downloadAndMeasure (url : String) : ConnResult → List Stats × Outcome
  | .connErr msg => ([errStats url msg], .failed)
  | .ok evs => runLoop url 0 evs

/-- `progOnly evs` holds when every event is a tick or an error-free
read: the loop neither terminates nor observes cancellation on them. -/
def progOnly : List LoopEv → Bool
  | [] => true
  | .tick _ :: rest => progOnly rest
  | .readOk _ :: rest => progOnly rest
  | _ => false

/-- Total bytes delivered by the error-free reads of an event list. -/
def okBytes : List LoopEv → ℕ
  | [] => 0
  | .readOk n :: rest => n + okBytes rest
  | _ :: rest => okBytes rest

/-- The progress samples the loop sends while consuming a `progOnly`
prefix, starting from `downloaded = d`. -/
def tickSamples (url : String) : Int → List LoopEv → List Stats
  | _, [] => []
  | d, .tick t :: rest => mkSample url d t :: tickSamples url d rest
  | d, .readOk n :: rest => tickSamples url (d + n) rest
  | d, _ :: rest => tickSamples url d rest

/-- The elapsed times at which the ticker fires in an event list. -/
def tickTimes : List LoopEv → List ℚ
  | [] => []
  | .tick t :: rest => t :: tickTimes rest
  | _ :: rest => tickTimes rest

/-- All timestamps carried by an event list, in order.  Since each is a
`time.Since(start)` taken at a later iteration than the previous one,
a run of the real program yields a strictly increasing list. -/
def evTimes : List LoopEv → List ℚ
  | [] => []
  | .cancel t :: rest => t :: evTimes rest
  | .tick t :: rest => t :: evTimes rest
  | .readOk _ :: rest => evTimes rest
  | .readEOF _ t :: rest => t :: evTimes rest
  | .readErr _ _ :: rest => evTimes rest

/-- Events on which the default read branch terminates the loop with a
sample: end-of-stream or a non-EOF read error. -/
def isTerminal : LoopEv → Bool
  | .readEOF _ _ => true
  | .readErr _ _ => true
  | _ => false

/-- The Go struct `Config` (lines 17–19): the `urls` list. -/
structure Config where
  urls : List String
  deriving DecidableEq, Repr

/-- What the consumer in `main` receives from one URL's channel: the
statement `result := <-downloadAndMeasure(ctx, url)` (line 121)
receives exactly one value, the first one sent. -/
def receivedSamples (seq : List Stats) : List Stats :=
  seq.take 1

/-- The `select` of the reporting loop (lines 118–126): if the context
is done, `main` returns (`none`); otherwise it receives one value from
the channel — the first sample sent, or the zero `Stats` if the
producer closed the channel without sending. -/
def mainSelect (cancelled : Bool) (seq : List Stats) : Option Stats :=
  if cancelled then none else some (seq.headD zeroStats)

/-- The values printed for one received sample (lines 122–125): the
URL after the checkmark, `float64(result.SizeBytes)/1e6` megabytes,
the elapsed duration, and both speeds.  The printing code reads no
other field of `result`; in particular it never consults `Error`. -/
def reportOutput (r : Stats) : String × ℚ × ℚ × ℚ × ℚ :=
  (r.url, (r.sizeBytes : ℚ) / 1000000, r.elapsed, r.speedMBps, r.speedMbps)

/-- One pass of the inner `for _, url := range config.URLs` loop
(lines 117–127) when the context is not cancelled: each URL gets one
`downloadAndMeasure` call whose first sample is received and printed. -/
def cycleRun (f : String → ConnResult) (cfg : Config) : List Stats :=
  cfg.urls.map fun u => ((downloadAndMeasure u (f u)).1.headD zeroStats)

/-- The `downloadAndMeasure` invocations one pass of the inner loop
makes: one per configured URL. -/
def cycleCalls (f : String → ConnResult) (cfg : Config) :
    List (List Stats × Outcome) :=
  cfg.urls.map fun u => downloadAndMeasure u (f u)

/-- The reporting loop over the URL list (lines 117–127), given each
URL's produced sample sequence: at each URL it runs the `select`; on
cancellation `main` returns (the remaining URLs are dropped), otherwise
the received sample is printed and the loop proceeds to the next URL. -/
def runURLs (cancelled : Bool) : List (List Stats) → List Stats
  | [] => []
  | seq :: rest =>
      match mainSelect cancelled seq with
      | none => []
      | some r => r :: runURLs cancelled rest

/-- Startup of `main` (lines 95–103): a config that fails to load is a
`log.Fatal` (modelled as `Except.error`); otherwise the program runs
its cycle and produces the printed samples. -/
def runMain (parsed : Option Config) (f : String → ConnResult) :
    Except String (List Stats) :=
  match parsed with
  | none => Except.error "config load failed"
  | some cfg => Except.ok (cycleRun f cfg)

/-! ## Helper lemmas about the read loop -/

/-- Consuming a progress-only prefix sends exactly its tick samples and
accumulates its bytes into `downloaded`, then carries on. -/
theorem runLoop_append (url : String) (d : Int) (pre rest : List LoopEv)
    (h : progOnly pre = true) :
    runLoop url d (pre ++ rest) =
      (tickSamples url d pre ++ (runLoop url (d + okBytes pre) rest).1,
       (runLoop url (d + okBytes pre) rest).2) := by
  induction pre generalizing d with
  | nil => simp [tickSamples, okBytes]
  | cons e pre ih =>
    cases e with
    | cancel t => simp [progOnly] at h
    | readEOF n t => simp [progOnly] at h
    | readErr n m => simp [progOnly] at h
    | tick t =>
        have h' : progOnly pre = true := by simpa [progOnly] using h
        simp [runLoop, tickSamples, okBytes, ih d h']
    | readOk n =>
        have h' : progOnly pre = true := by simpa [progOnly] using h
        have hd : d + ((n + okBytes pre : ℕ) : Int) =
            d + (n : Int) + (okBytes pre : Int) := by push_cast; ring
        simp only [List.cons_append, runLoop, tickSamples, okBytes, hd]
        exact ih (d + n) h'

/-- The elapsed times of the tick samples are the trace's tick times. -/
theorem tickSamples_elapsed (url : String) (d : Int) (evs : List LoopEv) :
    (tickSamples url d evs).map Stats.elapsed = tickTimes evs := by
  induction evs generalizing d with
  | nil => rfl
  | cons e evs ih => cases e <;> simp [tickSamples, tickTimes, mkSample, ih]

/-- Tick times form a sublist of all timestamps of the trace. -/
theorem tickTimes_sublist (evs : List LoopEv) :
    List.Sublist (tickTimes evs) (evTimes evs) := by
  induction evs with
  | nil => exact List.Sublist.refl _
  | cons e evs ih =>
    cases e with
    | cancel t =>
        simp only [tickTimes, evTimes]
        exact List.Sublist.cons t ih
    | tick t =>
        simp only [tickTimes, evTimes]
        exact List.Sublist.cons₂ t ih
    | readOk n => simpa [tickTimes, evTimes] using ih
    | readEOF n t =>
        simp only [tickTimes, evTimes]
        exact List.Sublist.cons t ih
    | readErr n m => simpa [tickTimes, evTimes] using ih

/-- `evTimes` distributes over trace concatenation. -/
theorem evTimes_append (l1 l2 : List LoopEv) :
    evTimes (l1 ++ l2) = evTimes l1 ++ evTimes l2 := by
  induction l1 with
  | nil => rfl
  | cons e l1 ih => cases e <;> simp [evTimes, ih]

/-- Every sample the read loop sends is either a progress/final sample
built by `mkSample` or an error sample built by `errStats`. -/
theorem runLoop_mem_shape (url : String) (d : Int) (evs : List LoopEv)
    (s : Stats) (hs : s ∈ (runLoop url d evs).1) :
    (∃ d' t, s = mkSample url d' t) ∨ ∃ m, s = errStats url m := by
  induction evs generalizing d with
  | nil => simp [runLoop] at hs
  | cons e evs ih =>
    cases e with
    | cancel t => simp [runLoop] at hs
    | tick t =>
        simp only [runLoop, List.mem_cons] at hs
        rcases hs with h | h
        · exact Or.inl ⟨d, t, h⟩
        · exact ih d h
    | readOk n => exact ih (d + n) (by simpa [runLoop] using hs)
    | readEOF n t =>
        simp only [runLoop, List.mem_singleton] at hs
        exact Or.inl ⟨d + n, t, hs⟩
    | readErr n m =>
        simp only [runLoop, List.mem_singleton] at hs
        exact Or.inr ⟨m, hs⟩

/-- Every sample `downloadAndMeasure` sends is a progress/final sample
or an error sample. -/
theorem dam_mem_shape (url : String) (conn : ConnResult) (s : Stats)
    (hs : s ∈ (downloadAndMeasure url conn).1) :
    (∃ d t, s = mkSample url d t) ∨ ∃ m, s = errStats url m := by
  cases conn with
  | connErr m =>
      simp only [downloadAndMeasure, List.mem_singleton] at hs
      exact Or.inr ⟨m, hs⟩
  | ok evs => exact runLoop_mem_shape url 0 evs s hs

/-! ## Claim theorems -/

/-- C2: for every input byte stream that is read to end-of-stream
without error or cancellation — a progress-only event prefix followed by
an `io.EOF` read — `downloadAndMeasure` emits exactly one final sample
after the tick samples; its `SizeBytes` equals the stream length
`L = okBytes pre + n`, its `Elapsed` is nonnegative, and the goroutine
returns (`completed`), closing the channel. -/
theorem c2_final_sample_totals (url : String) (pre : List LoopEv) (n : ℕ)
    (t : ℚ) (hpre : progOnly pre = true) (ht : 0 ≤ t) :
    downloadAndMeasure url (ConnResult.ok (pre ++ [LoopEv.readEOF n t])) =
      (tickSamples url 0 pre ++
        [mkSample url ((okBytes pre + n : ℕ) : Int) t], Outcome.completed) ∧
    (mkSample url ((okBytes pre + n : ℕ) : Int) t).sizeBytes =
      ((okBytes pre + n : ℕ) : Int) ∧
    0 ≤ (mkSample url ((okBytes pre + n : ℕ) : Int) t).elapsed := by
  refine ⟨?_, rfl, ht⟩
  show runLoop url 0 (pre ++ [LoopEv.readEOF n t]) = _
  rw [runLoop_append url 0 pre [LoopEv.readEOF n t] hpre]
  have hc : (0 : Int) + (okBytes pre : Int) + (n : Int) =
      ((okBytes pre + n : ℕ) : Int) := by push_cast; ring
  simp only [runLoop, hc]

/-- Witness for C2 at a concrete trace: one tick, a 3-byte read, then
EOF delivering 2 more bytes at elapsed time 2. -/
theorem c2_witness :
    progOnly [LoopEv.tick 1, LoopEv.readOk 3] = true ∧ (0 : ℚ) ≤ 2 ∧
    downloadAndMeasure "u"
        (ConnResult.ok ([LoopEv.tick 1, LoopEv.readOk 3] ++
          [LoopEv.readEOF 2 2])) =
      (tickSamples "u" 0 [LoopEv.tick 1, LoopEv.readOk 3] ++
        [mkSample "u"
          ((okBytes [LoopEv.tick 1, LoopEv.readOk 3] + 2 : ℕ) : Int) 2],
        Outcome.completed) :=
  ⟨by decide, by norm_num,
    (c2_final_sample_totals "u" [LoopEv.tick 1, LoopEv.readOk 3] 2 2
      (by decide) (by norm_num)).1⟩

/-- C3: on a failed request setup (`client.Get` error), the producer
sends exactly one sample; its error is populated and its `SizeBytes`
is `0`, and the goroutine returns, terminating the sequence. -/
theorem c3_conn_error_single_sample (url msg : String) :
    downloadAndMeasure url (ConnResult.connErr msg) =
      ([errStats url msg], Outcome.failed) ∧
    (downloadAndMeasure url (ConnResult.connErr msg)).1.length = 1 ∧
    (errStats url msg).error = some msg ∧
    (errStats url msg).sizeBytes = 0 :=
  ⟨rfl, rfl, rfl, rfl⟩

/-- C4: every non-error sample `downloadAndMeasure` emits satisfies
`SpeedMbps = SpeedMBps * 8` — exactly, since `SpeedMBps` is
`bytes/1e6/seconds` and `SpeedMbps` is `bytes*8/1e6/seconds`. -/
theorem c4_speed_ratio (url : String) (conn : ConnResult) (s : Stats)
    (hs : s ∈ (downloadAndMeasure url conn).1) (he : s.error = none) :
    s.speedMbps = s.speedMBps * 8 := by
  rcases dam_mem_shape url conn s hs with ⟨d, t, rfl⟩ | ⟨m, rfl⟩
  · simp only [mkSample]
    push_cast
    ring
  · simp [errStats] at he

/-- Witness for C4 at a concrete run: a 5-byte stream finishing at
elapsed time 3 yields one final sample with the exact 8:1 ratio. -/
theorem c4_witness :
    mkSample "u" 5 3 ∈
      (downloadAndMeasure "u"
        (ConnResult.ok [LoopEv.readOk 5, LoopEv.readEOF 0 3])).1 ∧
    (mkSample "u" 5 3).error = none ∧
    (mkSample "u" 5 3).speedMbps = (mkSample "u" 5 3).speedMBps * 8 :=
  ⟨List.Mem.head _, rfl,
    c4_speed_ratio "u" (ConnResult.ok [LoopEv.readOk 5, LoopEv.readEOF 0 3])
      (mkSample "u" 5 3) (List.Mem.head _) rfl⟩

/-- C10: every sample with a populated error has all measurement fields
zero: `Stats{URL: url, Error: err}` leaves `SizeBytes`, `Elapsed` and
both speeds at their Go zero values, so bytes accumulated before a
mid-stream read error are discarded, not reported. -/
theorem c10_error_sample_zeros (url : String) (conn : ConnResult)
    (s : Stats) (hs : s ∈ (downloadAndMeasure url conn).1)
    (he : s.error ≠ none) :
    s.sizeBytes = 0 ∧ s.elapsed = 0 ∧ s.speedMBps = 0 ∧ s.speedMbps = 0 := by
  rcases dam_mem_shape url conn s hs with ⟨d, t, rfl⟩ | ⟨m, rfl⟩
  · simp [mkSample] at he
  · exact ⟨rfl, rfl, rfl, rfl⟩

/-- Witness for C10 at a concrete run: 100 bytes are read, then a
non-EOF read error occurs; the emitted error sample reports zero bytes. -/
theorem c10_witness :
    errStats "u" "reset" ∈
      (downloadAndMeasure "u"
        (ConnResult.ok [LoopEv.readOk 100, LoopEv.readErr 0 "reset"])).1 ∧
    (errStats "u" "reset").error ≠ none ∧
    ((errStats "u" "reset").sizeBytes = 0 ∧ (errStats "u" "reset").elapsed = 0 ∧
      (errStats "u" "reset").speedMBps = 0 ∧
      (errStats "u" "reset").speedMbps = 0) :=
  ⟨List.Mem.head _, by decide,
    c10_error_sample_zeros "u"
      (ConnResult.ok [LoopEv.readOk 100, LoopEv.readErr 0 "reset"])
      (errStats "u" "reset") (List.Mem.head _) (by decide)⟩

/-- C1: the claim that the reporting loop drains the entire Sample
sequence fails on the code: `result := <-downloadAndMeasure(ctx, url)`
(line 121) receives exactly one value per URL.  On a run whose producer
emits two samples (one tick, then the final sample), the consumer
receives only the first tick sample and moves on, so the received
samples differ from the produced sequence. -/
theorem c1_receive_only_first :
    (downloadAndMeasure "u"
        (ConnResult.ok [LoopEv.tick 1, LoopEv.readEOF 5 2])).1 =
      [mkSample "u" 0 1, mkSample "u" 5 2] ∧
    receivedSamples
        (downloadAndMeasure "u"
          (ConnResult.ok [LoopEv.tick 1, LoopEv.readEOF 5 2])).1 =
      [mkSample "u" 0 1] ∧
    receivedSamples
        (downloadAndMeasure "u"
          (ConnResult.ok [LoopEv.tick 1, LoopEv.readEOF 5 2])).1 ≠
      (downloadAndMeasure "u"
        (ConnResult.ok [LoopEv.tick 1, LoopEv.readEOF 5 2])).1 := by
  refine ⟨rfl, rfl, ?_⟩
  have hfull : (downloadAndMeasure "u"
      (ConnResult.ok [LoopEv.tick 1, LoopEv.readEOF 5 2])).1 =
      [mkSample "u" 0 1, mkSample "u" 5 2] := rfl
  rw [hfull]
  show [mkSample "u" 0 1] ≠ [mkSample "u" 0 1, mkSample "u" 5 2]
  simp

/-- C5 (counterexample): a download whose context is already cancelled
at the first loop iteration produces an empty sequence — not non-empty,
and with no final sample. -/
theorem c5_counterexample :
    downloadAndMeasure "u" (ConnResult.ok [LoopEv.cancel 0]) =
      ([], Outcome.cancelled 0) :=
  rfl

/-- C5 (amended): for every URL whose download is not cancelled — the
read loop runs a progress-only prefix and then hits end-of-stream or a
read error — the sequence of samples is non-empty, its ticked samples
are in strictly increasing elapsed-time order (timestamps taken from a
strictly increasing clock), and it is terminated by exactly one final
sample. -/
theorem c5_sequence_shape (url : String) (pre : List LoopEv) (ev : LoopEv)
    (hpre : progOnly pre = true) (hev : isTerminal ev = true)
    (hclock : (evTimes (pre ++ [ev])).Pairwise (fun a b => a < b)) :
    (downloadAndMeasure url (ConnResult.ok (pre ++ [ev]))).1 ≠ [] ∧
    (∃ term : Stats,
      (downloadAndMeasure url (ConnResult.ok (pre ++ [ev]))).1 =
        tickSamples url 0 pre ++ [term]) ∧
    ((tickSamples url 0 pre).map Stats.elapsed).Pairwise
      (fun a b => a < b) := by
  have hshape : ∃ term : Stats,
      (downloadAndMeasure url (ConnResult.ok (pre ++ [ev]))).1 =
        tickSamples url 0 pre ++ [term] := by
    show ∃ term, (runLoop url 0 (pre ++ [ev])).1 = _
    rw [runLoop_append url 0 pre [ev] hpre]
    cases ev with
    | readEOF n t =>
        exact ⟨mkSample url ((okBytes pre : Int) + (n : Int)) t,
          by simp [runLoop]⟩
    | readErr n m => exact ⟨errStats url m, by simp [runLoop]⟩
    | cancel t => simp [isTerminal] at hev
    | tick t => simp [isTerminal] at hev
    | readOk n => simp [isTerminal] at hev
  refine ⟨?_, hshape, ?_⟩
  · rcases hshape with ⟨term, hterm⟩
    rw [hterm]
    simp
  · rw [tickSamples_elapsed]
    have h1 : List.Sublist (tickTimes pre) (evTimes pre) :=
      tickTimes_sublist pre
    have h2 : List.Sublist (evTimes pre) (evTimes (pre ++ [ev])) := by
      rw [evTimes_append]
      exact List.sublist_append_left _ _
    exact List.Pairwise.sublist (h1.trans h2) hclock

/-- Witness for the amended C5 at a concrete trace: two ticks around a
read, then EOF; the sequence is non-empty with ticks at times 1 < 2. -/
theorem c5_witness :
    progOnly [LoopEv.tick 1, LoopEv.readOk 4, LoopEv.tick 2] = true ∧
    isTerminal (LoopEv.readEOF 0 3) = true ∧
    (evTimes ([LoopEv.tick 1, LoopEv.readOk 4, LoopEv.tick 2] ++
        [LoopEv.readEOF 0 3])).Pairwise (fun a b => a < b) ∧
    (downloadAndMeasure "u"
      (ConnResult.ok ([LoopEv.tick 1, LoopEv.readOk 4, LoopEv.tick 2] ++
        [LoopEv.readEOF 0 3]))).1 ≠ [] :=
  have hclock : (evTimes ([LoopEv.tick 1, LoopEv.readOk 4, LoopEv.tick 2] ++
      [LoopEv.readEOF 0 3])).Pairwise (fun a b : ℚ => a < b) := by
    simp only [evTimes_append, evTimes]
    norm_num [List.pairwise_cons]
  ⟨by decide, by decide, hclock,
    (c5_sequence_shape "u" [LoopEv.tick 1, LoopEv.readOk 4, LoopEv.tick 2]
      (LoopEv.readEOF 0 3) (by decide) (by decide) hclock).1⟩

/-- C6: when the loop observes cancellation after a progress-only
prefix, it emits no further sample — in particular no final success
sample even if the stream would have ended right after — records the
elapsed time in the log (`cancelled t`), and the goroutine returns,
terminating the sequence. -/
theorem c6_cancel_no_further_samples (url : String) (pre rest : List LoopEv)
    (t : ℚ) (hpre : progOnly pre = true) :
    downloadAndMeasure url (ConnResult.ok (pre ++ LoopEv.cancel t :: rest)) =
      (tickSamples url 0 pre, Outcome.cancelled t) := by
  show runLoop url 0 (pre ++ LoopEv.cancel t :: rest) = _
  rw [runLoop_append url 0 pre (LoopEv.cancel t :: rest) hpre]
  simp [runLoop]

/-- Witness for C6 at a concrete trace: one tick, then cancellation at
elapsed 2; the EOF that follows in the trace is never read, and only
the tick sample is emitted. -/
theorem c6_witness :
    progOnly [LoopEv.tick 1] = true ∧
    downloadAndMeasure "u"
        (ConnResult.ok ([LoopEv.tick 1] ++
          LoopEv.cancel 2 :: [LoopEv.readEOF 9 9])) =
      (tickSamples "u" 0 [LoopEv.tick 1], Outcome.cancelled 2) :=
  ⟨by decide,
    c6_cancel_no_further_samples "u" [LoopEv.tick 1] [LoopEv.readEOF 9 9] 2
      (by decide)⟩

/-- C7: a non-EOF read error mid-transfer is handled like a connection
error: the sequence ends with one terminal sample carrying the error,
the goroutine returns (`failed`), and the reporting loop — whose only
exit is cancellation — receives it and proceeds to the remaining URLs
instead of terminating the process. -/
theorem c7_read_error_not_fatal (url msg : String) (pre : List LoopEv)
    (n : ℕ) (rest : List (List Stats)) (hpre : progOnly pre = true) :
    downloadAndMeasure url (ConnResult.ok (pre ++ [LoopEv.readErr n msg])) =
      (tickSamples url 0 pre ++ [errStats url msg], Outcome.failed) ∧
    (errStats url msg).error = some msg ∧
    runURLs false
        ((downloadAndMeasure url
          (ConnResult.ok (pre ++ [LoopEv.readErr n msg]))).1 :: rest) =
      ((downloadAndMeasure url
          (ConnResult.ok (pre ++ [LoopEv.readErr n msg]))).1.headD zeroStats)
        :: runURLs false rest := by
  have h : downloadAndMeasure url
      (ConnResult.ok (pre ++ [LoopEv.readErr n msg])) =
      (tickSamples url 0 pre ++ [errStats url msg], Outcome.failed) := by
    show runLoop url 0 (pre ++ [LoopEv.readErr n msg]) = _
    rw [runLoop_append url 0 pre [LoopEv.readErr n msg] hpre]
    simp [runLoop]
  exact ⟨h, rfl, by simp [runURLs, mainSelect]⟩

/-- Witness for C7 at a concrete run: a connection that errors on the
first read; the loop output shows the error sample received and the
iteration over the remaining (empty) URL tail proceeding. -/
theorem c7_witness :
    progOnly ([] : List LoopEv) = true ∧
    runURLs false
        ((downloadAndMeasure "u"
          (ConnResult.ok ([] ++ [LoopEv.readErr 0 "refused"]))).1 :: []) =
      ((downloadAndMeasure "u"
          (ConnResult.ok ([] ++ [LoopEv.readErr 0 "refused"]))).1.headD
        zeroStats) :: runURLs false [] :=
  ⟨rfl, (c7_read_error_not_fatal "u" "refused" [] 0 [] rfl).2.2⟩

/-- C8: the print loop (lines 122–125) does not special-case the error
field: its output depends only on URL, size, elapsed and the two
speeds, so two samples differing only in `Error` print identically,
and an error sample prints the checkmark line with zero-valued
fields. -/
theorem c8_reporter_ignores_error :
    (∀ (r : Stats) (e : Option String),
      reportOutput { r with error := e } = reportOutput r) ∧
    ∀ u m : String, reportOutput (errStats u m) = (u, 0, 0, 0, 0) := by
  refine ⟨fun r e => rfl, fun u m => ?_⟩
  simp [reportOutput, errStats]

/-- C9: when the config loads successfully with an empty `urls` list,
one pass of the loop makes no `downloadAndMeasure` call and `main`
raises no error. -/
theorem c9_empty_urls (f : String → ConnResult) :
    runMain (some { urls := [] }) f = Except.ok [] ∧
    cycleCalls f { urls := [] } = [] :=
  ⟨rfl, rfl⟩

end Yaperf
